import Mathlib

/-!
# tiny-url: the bidirectional URL registry and its two HTTP handlers

A shallow embedding of `main.go`.

* A Go `string` is a sequence of bytes; it is modelled by a Lean `String`
  whose characters are read as those bytes.  Every literal of the program is
  ASCII, so literals are written as they stand in the source.
* A Go `map[string]string` is modelled by `GoMap`, a finite association list
  with at most one entry per key once built through `GoMap.set`.
* `URLStore` methods take the store as an explicit argument.  `save` returns
  the new store; the two lookups return their Go result pair together with the
  store they leave behind.  The `sync.RWMutex` is held for the whole body of
  each method and released on return; in this sequential model each method is
  one step and the lock is not represented.
* The standard library is at the boundary of the model: the JSON decoder, the
  random source and `http.Redirect` appear as the values they hand to or
  receive from the program.  What `http.Redirect` writes as the `Location`
  header is modelled apart, by `locationHeader`: its rewriting of a URL without
  scheme and host is a parameter, its final `hexEscapeNonASCII` is a definition.
  A non-ASCII byte of an example is written by its code, as in `\xc3\xa9`.
-/

namespace TinyUrl

/-! ## Go maps -/

/-- A `map[string]string`: key/value entries; lookups take the first entry of a key. -/
abbrev GoMap := List (String × String)

namespace GoMap

/-- The map built by `make(map[string]string)`. -/
def empty : GoMap := []

/-- The comma-ok read `v, ok := m[k]`: the stored value and `true`, or the zero
value `""` and `false` when `k` is not a key. -/
def get : GoMap → String → String × Bool
  | [], _ => ("", false)
  | (k', v) :: rest, k => if k' = k then (v, true) else get rest k

/-- The assignment `m[k] = v`: any entry of `k` is replaced by the single entry `(k, v)`. -/
def set (m : GoMap) (k v : String) : GoMap :=
  (k, v) :: m.filter (fun e => decide (e.1 ≠ k))

end GoMap

/-! ## Constants -/

/-- The constant `base62Chars`. -/
def base62Chars : String :=
  "abcdefghijklmnopqrstuvwxyzABCDEFGHIJKLMNOPQRSTUVWXYZ0123456789"

/-- The constant `shortIDLen`. -/
def shortIDLen : Nat := 6

/-! ## The registry -/

/-- The struct `URLStore` (without its embedded lock). -/
structure URLStore where
  /-- Field `shortToLong`: shortID -> long URL. -/
  shortToLong : GoMap
  /-- Field `longToShort`: long URL -> shortID. -/
  longToShort : GoMap
  deriving DecidableEq, Repr

/-- The constructor `newURLStore`: both maps empty. -/
def newURLStore : URLStore :=
  { shortToLong := GoMap.empty, longToShort := GoMap.empty }

/-- The method `save`: two map assignments, `shortToLong[shortID] = originalURL`
and `longToShort[originalURL] = shortID`, with no check of either key. -/
def save (s : URLStore) (shortID originalURL : String) : URLStore :=
  { shortToLong := s.shortToLong.set shortID originalURL,
    longToShort := s.longToShort.set originalURL shortID }

/-- The method `getByShort`: the comma-ok read of `shortToLong[shortID]`, and the
store after the call. -/
def getByShort (s : URLStore) (shortID : String) : (String × Bool) × URLStore :=
  (s.shortToLong.get shortID, s)

/-- The method `getByLong`: the comma-ok read of `longToShort[originalURL]`, and
the store after the call. -/
def getByLong (s : URLStore) (originalURL : String) : (String × Bool) × URLStore :=
  (s.longToShort.get originalURL, s)

/-! ## The identifier generator -/

/-- The byte `str[i]` of a string, `none` where Go panics with an index out of range. -/
def byteAt (str : String) (i : Nat) : Option Char :=
  str.data.get? i

/-- The loop of `generateShortID` from position `i` on: `draw j` is the value
returned by the `j`-th call `rand.Intn(len(base62Chars))` after the seeding, and
symbol `j` of the result is `base62Chars[draw j]`. -/
def generateLoop (draw : Nat → Nat) : Nat → Nat → Option (List Char)
  | _, 0 => some []
  | i, n + 1 =>
    match byteAt base62Chars (draw i) with
    | none => none
    | some c =>
      match generateLoop draw (i + 1) n with
      | none => none
      | some cs => some (c :: cs)

/-- The function `generateShortID` over the draws of the random source: a string
of `shortIDLen` bytes, `none` if an index into `base62Chars` is out of range. -/
def generateShortID (draw : Nat → Nat) : Option String :=
  (generateLoop draw 0 shortIDLen).map String.mk

/-! ## HTTP handlers -/

/-- What a handler reads of an `http.Request`: the method, `r.URL.Path`, and the
outcome of `json.NewDecoder(r.Body).Decode(&req)`: `none` when it returns an
error, otherwise the decoded `req.URL` (empty when the field is missing). -/
structure Request where
  method : String
  path : String
  decoded : Option String
  deriving DecidableEq, Repr

/-- What a handler writes. -/
inductive Response where
  /-- A body `{"short_url": v}` written by `json.NewEncoder(w).Encode`, status 200. -/
  | json (status : Nat) (short_url : String)
  /-- A call `http.Error(w, msg, status)`. -/
  | error (status : Nat) (msg : String)
  /-- A call `http.Redirect(w, r, url, status)`; `url` is the target handed to it. -/
  | redirect (status : Nat) (url : String)
  deriving DecidableEq, Repr

/-- The handler `shortenURLHandler` on the global store `urlStore`.  `gen` is the
value `generateShortID()` returns if the handler reaches that call. -/
def shortenURLHandler (urlStore : URLStore) (r : Request) (gen : String) :
    Response × URLStore :=
  if r.method ≠ "POST" then
    (Response.error 405 "Only POST method is allowed", urlStore)
  else
    match r.decoded with
    | none => (Response.error 400 "Invalid request body", urlStore)
    | some reqURL =>
      if reqURL = "" then
        (Response.error 400 "Invalid request body", urlStore)
      else
        match getByLong urlStore reqURL with
        | ((shortID, true), st) =>
          (Response.json 200 ("http://localhost:8080/" ++ shortID), st)
        | ((_, false), st) =>
          let shortID := gen
          let st := save st shortID reqURL
          (Response.json 200 ("http://localhost:8080/" ++ shortID), st)

/-- The slice `str[1:]`: `none` where Go panics (empty string), otherwise the
string without its first byte. -/
def sliceFrom1 (str : String) : Option String :=
  match str.data with
  | [] => none
  | _ :: rest => some (String.mk rest)

/-- The handler `resolveURLHandler` on the global store; `none` is a panic. -/
def resolveURLHandler (urlStore : URLStore) (r : Request) :
    Option (Response × URLStore) :=
  match sliceFrom1 r.path with
  | none => none
  | some shortID =>
    match getByShort urlStore shortID with
    | ((_, false), st) => some (Response.error 404 "URL not found", st)
    | ((originalURL, true), st) => some (Response.redirect 302 originalURL, st)

/-! ## Runs -/

/-- The store after a sequence of `save(shortID, originalURL)` calls, first call first. -/
def saveAll (s : URLStore) : List (String × String) → URLStore
  | [] => s
  | (shortID, originalURL) :: rest => saveAll (save s shortID originalURL) rest

/-- The calls of a sequence of `save(shortID, originalURL)` are each made when no
identifier other than `shortID` resolves to `originalURL`. -/
def NoSecondIdentifier (s : URLStore) : List (String × String) → Prop
  | [] => True
  | (shortID, originalURL) :: rest =>
    (∀ other, other ≠ shortID → (getByShort s other).1 ≠ (originalURL, true)) ∧
      NoSecondIdentifier (save s shortID originalURL) rest

/-- The calls of a sequence of `save(shortID, originalURL)` are each made when no
URL other than `originalURL` is indexed under `shortID` in `longToShort`. -/
def NoSecondURL (s : URLStore) : List (String × String) → Prop
  | [] => True
  | (shortID, originalURL) :: rest =>
    (∀ other, other ≠ originalURL → (getByLong s other).1 ≠ (shortID, true)) ∧
      NoSecondURL (save s shortID originalURL) rest

/-- Every entry of `shortToLong` has its mirror entry in `longToShort`. -/
def ShortMirrored (s : URLStore) : Prop :=
  ∀ shortID url, (getByShort s shortID).1 = (url, true) → (getByLong s url).1 = (shortID, true)

/-- Every entry of `longToShort` has its mirror entry in `shortToLong`. -/
def LongMirrored (s : URLStore) : Prop :=
  ∀ url shortID, (getByLong s url).1 = (shortID, true) → (getByShort s shortID).1 = (url, true)

/-- The store after a sequence of Shorten requests, each paired with the value its
call of `generateShortID()` returns if reached, first request first. -/
def shortenAll (s : URLStore) : List (Request × String) → URLStore
  | [] => s
  | (r, gen) :: rest => shortenAll (shortenURLHandler s r gen).2 rest

/-- No request of a sequence of Shorten requests overwrote an identifier: each
request either left the store as it was or drew an identifier that was not a
key of `shortToLong`. -/
def CollisionFree (s : URLStore) : List (Request × String) → Prop
  | [] => True
  | (r, gen) :: rest =>
    ((shortenURLHandler s r gen).2 = s ∨ (getByShort s gen).1.2 = false) ∧
      CollisionFree (shortenURLHandler s r gen).2 rest

/-- A string is an output of `generateShortID`: some random source whose draws all
lie in the range of `rand.Intn(len(base62Chars))` makes the function return it. -/
def Generated (shortID : String) : Prop :=
  ∃ draw : Nat → Nat, (∀ i, draw i < 62) ∧ generateShortID draw = some shortID

/-- A string of exactly `shortIDLen` symbols, each one a symbol of `base62Chars`. -/
def WellShaped (shortID : String) : Prop :=
  shortID.length = shortIDLen ∧ ∀ c ∈ shortID.data, c ∈ base62Chars.data

/-- Every identifier held in `longToShort` is well shaped. -/
def IndexShaped (s : URLStore) : Prop :=
  ∀ url shortID, (getByLong s url).1 = (shortID, true) → WellShaped shortID

/-- Following the spec's words, not the source: the first path segment of a
path, the text between the leading `/` and the next `/` or the end of the path. -/
def specFirstSegment (path : String) : String :=
  String.mk ((path.data.drop 1).takeWhile (fun c => decide (c ≠ '/')))

/-- The first atomic step of `shortenURLHandler`, up to and including the call of
`getByLong`: a final response (a rejection, or the identifier found), or the
decoded URL that remains to be registered. -/
def shortenCheck (urlStore : URLStore) (r : Request) : (Response ⊕ String) × URLStore :=
  if r.method ≠ "POST" then
    (Sum.inl (Response.error 405 "Only POST method is allowed"), urlStore)
  else
    match r.decoded with
    | none => (Sum.inl (Response.error 400 "Invalid request body"), urlStore)
    | some reqURL =>
      if reqURL = "" then
        (Sum.inl (Response.error 400 "Invalid request body"), urlStore)
      else
        match getByLong urlStore reqURL with
        | ((shortID, true), st) =>
          (Sum.inl (Response.json 200 ("http://localhost:8080/" ++ shortID)), st)
        | ((_, false), st) => (Sum.inr reqURL, st)

/-- The second atomic step of `shortenURLHandler`, after a miss of `getByLong`:
`generateShortID()` returns `gen`, the pair is saved and the response written. -/
def shortenCommit (urlStore : URLStore) (reqURL gen : String) : Response × URLStore :=
  let shortID := gen
  let st := save urlStore shortID reqURL
  (Response.json 200 ("http://localhost:8080/" ++ shortID), st)

/-- Not in the source: the function `hexEscapeNonASCII` of the standard library
(`net/http`), through which `http.Redirect` passes the URL before it sets the
`Location` header.  A byte below `0x80` is kept; any other byte `b` becomes `%`
followed by `strconv.AppendInt(b, 16)`, its lowercase hexadecimal digits. -/
def hexEscapeNonASCII (s : String) : String :=
  String.mk (s.data.flatMap
    (fun c => if c.toNat < 128 then [c] else '%' :: Nat.toDigits 16 c.toNat))

/-- Not in the source: the `Location` header of the answer a handler gives through
`http.Redirect(w, r, url, status)`.  The library first rewrites `url` from the
request path where `url.Parse` finds neither scheme nor host in it; that step is
the parameter `rewrite`, applied to `r.URL.Path` and `url`.  The header is the
rewritten URL after `hexEscapeNonASCII`.  Other answers carry no such header. -/
def locationHeader (rewrite : String → String → String) (r : Request) :
    Response → Option String
  | Response.redirect _ url => some (hexEscapeNonASCII (rewrite r.path url))
  | _ => none

/-- The `Location` header of the answer `resolveURLHandler` gives to a request, if
the answer carries one (see `locationHeader`). -/
def resolveLocation (rewrite : String → String → String) (urlStore : URLStore)
    (r : Request) : Option String :=
  (resolveURLHandler urlStore r).bind (fun answer => locationHeader rewrite r answer.1)

/-! ## Lemmas on Go maps -/

theorem GoMap.get_filter_ne (m : GoMap) (k k' : String) (h : k' ≠ k) :
    GoMap.get (m.filter (fun e => decide (e.1 ≠ k))) k' = GoMap.get m k' := by
  induction m with
  | nil => rfl
  | cons e rest ih =>
    obtain ⟨a, b⟩ := e
    by_cases hak : a = k
    · have hak' : ¬ a = k' := fun h' => h (h'.symm.trans hak)
      rw [List.filter_cons_of_neg (by simpa using hak)]
      simp only [GoMap.get, hak', if_false]
      exact ih
    · rw [List.filter_cons_of_pos (by simpa using hak)]
      by_cases hak' : a = k'
      · simp only [GoMap.get, hak', if_true]
      · simp only [GoMap.get, hak', if_false]
        exact ih

theorem GoMap.get_set_same (m : GoMap) (k v : String) :
    GoMap.get (m.set k v) k = (v, true) := by
  simp [GoMap.set, GoMap.get]

theorem GoMap.get_set_ne (m : GoMap) (k v k' : String) (h : k' ≠ k) :
    GoMap.get (m.set k v) k' = GoMap.get m k' := by
  have hk : ¬ k = k' := fun h' => h h'.symm
  simp only [GoMap.set, GoMap.get, hk, if_false]
  exact GoMap.get_filter_ne m k k' h

theorem GoMap.get_false (m : GoMap) (k : String) (h : (GoMap.get m k).2 = false) :
    GoMap.get m k = ("", false) := by
  induction m with
  | nil => rfl
  | cons e rest ih =>
    obtain ⟨a, b⟩ := e
    by_cases hak : a = k
    · simp [GoMap.get, hak] at h
    · simp only [GoMap.get, hak, if_false] at h ⊢
      exact ih h

/-! ## Lemmas on the registry -/

theorem getByShort_save_same (st : URLStore) (shortID url : String) :
    (getByShort (save st shortID url) shortID).1 = (url, true) :=
  GoMap.get_set_same _ _ _

theorem getByLong_save_same (st : URLStore) (shortID url : String) :
    (getByLong (save st shortID url) url).1 = (shortID, true) :=
  GoMap.get_set_same _ _ _

theorem getByShort_save_ne (st : URLStore) (shortID url k : String) (h : k ≠ shortID) :
    (getByShort (save st shortID url) k).1 = (getByShort st k).1 :=
  GoMap.get_set_ne _ _ _ _ h

theorem getByLong_save_ne (st : URLStore) (shortID url k : String) (h : k ≠ url) :
    (getByLong (save st shortID url) k).1 = (getByLong st k).1 :=
  GoMap.get_set_ne _ _ _ _ h

theorem shortMirrored_new : ShortMirrored newURLStore := by
  intro shortID url h
  simp [getByShort, newURLStore, GoMap.empty, GoMap.get] at h

theorem longMirrored_new : LongMirrored newURLStore := by
  intro url shortID h
  simp [getByLong, newURLStore, GoMap.empty, GoMap.get] at h

theorem shortMirrored_save (st : URLStore) (shortID url : String) (hinv : ShortMirrored st)
    (hfresh : ∀ other, other ≠ shortID → (getByShort st other).1 ≠ (url, true)) :
    ShortMirrored (save st shortID url) := by
  intro k v hk
  by_cases hks : k = shortID
  · subst hks
    rw [getByShort_save_same] at hk
    have hv : url = v := congrArg Prod.fst hk
    subst hv
    exact getByLong_save_same st k url
  · rw [getByShort_save_ne st shortID url k hks] at hk
    have hvu : v ≠ url := by
      intro hvu
      subst hvu
      exact hfresh k hks hk
    rw [getByLong_save_ne st shortID url v hvu]
    exact hinv k v hk

theorem longMirrored_save (st : URLStore) (shortID url : String) (hinv : LongMirrored st)
    (hfresh : ∀ other, other ≠ url → (getByLong st other).1 ≠ (shortID, true)) :
    LongMirrored (save st shortID url) := by
  intro k v hk
  by_cases hku : k = url
  · subst hku
    rw [getByLong_save_same] at hk
    have hv : shortID = v := congrArg Prod.fst hk
    subst hv
    exact getByShort_save_same st shortID k
  · rw [getByLong_save_ne st shortID url k hku] at hk
    have hvs : v ≠ shortID := by
      intro hvs
      subst hvs
      exact hfresh k hku hk
    rw [getByShort_save_ne st shortID url v hvs]
    exact hinv k v hk

theorem shortMirrored_saveAll (calls : List (String × String)) :
    ∀ st : URLStore, ShortMirrored st → NoSecondIdentifier st calls →
      ShortMirrored (saveAll st calls) := by
  induction calls with
  | nil => intro st hinv _; exact hinv
  | cons c rest ih =>
    obtain ⟨shortID, url⟩ := c
    intro st hinv hcalls
    exact ih _ (shortMirrored_save st shortID url hinv hcalls.1) hcalls.2

theorem longMirrored_saveAll (calls : List (String × String)) :
    ∀ st : URLStore, LongMirrored st → NoSecondURL st calls →
      LongMirrored (saveAll st calls) := by
  induction calls with
  | nil => intro st hinv _; exact hinv
  | cons c rest ih =>
    obtain ⟨shortID, url⟩ := c
    intro st hinv hcalls
    exact ih _ (longMirrored_save st shortID url hinv hcalls.1) hcalls.2

theorem getByShort_saveAll_miss (calls : List (String × String)) (k : String)
    (hk : k ∉ calls.map Prod.fst) :
    ∀ st : URLStore, (getByShort st k).1 = ("", false) →
      (getByShort (saveAll st calls) k).1 = ("", false) := by
  induction calls with
  | nil => intro st h; exact h
  | cons c rest ih =>
    obtain ⟨shortID, url⟩ := c
    intro st h
    have hne : k ≠ shortID := fun e => hk (by simp [e])
    have hrest : k ∉ rest.map Prod.fst := fun hm => hk (by simp at hm ⊢; exact Or.inr hm)
    exact ih hrest _ ((getByShort_save_ne st shortID url k hne).trans h)

theorem getByLong_saveAll_miss (calls : List (String × String)) (k : String)
    (hk : k ∉ calls.map Prod.snd) :
    ∀ st : URLStore, (getByLong st k).1 = ("", false) →
      (getByLong (saveAll st calls) k).1 = ("", false) := by
  induction calls with
  | nil => intro st h; exact h
  | cons c rest ih =>
    obtain ⟨shortID, url⟩ := c
    intro st h
    have hne : k ≠ url := fun e => hk (by simp [e])
    have hrest : k ∉ rest.map Prod.snd := fun hm => hk (by simp at hm ⊢; exact Or.inr hm)
    exact ih hrest _ ((getByLong_save_ne st shortID url k hne).trans h)

/-! ## Lemmas on the generator -/

theorem base62Chars_length : base62Chars.data.length = 62 := by decide

theorem byteAt_base62Chars (i : Nat) (h : i < 62) :
    ∃ c, byteAt base62Chars i = some c ∧ c ∈ base62Chars.data := by
  have hi : i < base62Chars.data.length := by rw [base62Chars_length]; exact h
  exact ⟨base62Chars.data.get ⟨i, hi⟩, List.get?_eq_get hi, List.get_mem _ _ _⟩

theorem generateLoop_shape (draw : Nat → Nat) (h : ∀ j, draw j < 62) :
    ∀ n i, ∃ cs, generateLoop draw i n = some cs ∧ cs.length = n ∧
      (∀ k, k < n → cs.get? k = byteAt base62Chars (draw (i + k))) ∧
      ∀ c ∈ cs, c ∈ base62Chars.data := by
  intro n
  induction n with
  | zero =>
    intro i
    exact ⟨[], rfl, rfl, fun k hk => absurd hk (Nat.not_lt_zero k), fun c hc => by cases hc⟩
  | succ n ih =>
    intro i
    obtain ⟨c, hc, hcmem⟩ := byteAt_base62Chars (draw i) (h i)
    obtain ⟨cs, hcs, hlen, hget, hmem⟩ := ih (i + 1)
    refine ⟨c :: cs, ?_, ?_, ?_, ?_⟩
    · simp only [generateLoop, hc, hcs]
    · simp [hlen]
    · intro k hk
      cases k with
      | zero => simpa using hc.symm
      | succ k =>
        have := hget k (Nat.lt_of_succ_lt_succ hk)
        rw [List.get?_cons_succ, this]
        congr 2
        omega
    · intro x hx
      rcases List.mem_cons.mp hx with hx | hx
      · rw [hx]; exact hcmem
      · exact hmem x hx

theorem generated_wellShaped (shortID : String) (h : Generated shortID) :
    WellShaped shortID := by
  obtain ⟨draw, hdraw, hgen⟩ := h
  obtain ⟨cs, hcs, hlen, _, hmem⟩ := generateLoop_shape draw hdraw shortIDLen 0
  simp only [generateShortID, hcs, Option.map_some', Option.some.injEq] at hgen
  subst hgen
  exact ⟨hlen, hmem⟩

theorem base62Chars_classes :
    ∀ c ∈ base62Chars.data, (c.isLower || c.isUpper || c.isDigit) = true := by
  decide

/-! ## Lemmas on the handlers -/

theorem shorten_hit (st : URLStore) (p url gen shortID : String) (hurl : url ≠ "")
    (h : (getByLong st url).1 = (shortID, true)) :
    shortenURLHandler st ⟨"POST", p, some url⟩ gen
      = (Response.json 200 ("http://localhost:8080/" ++ shortID), st) := by
  simp only [getByLong] at h
  simp [shortenURLHandler, getByLong, hurl, h]

theorem shorten_miss (st : URLStore) (p url gen : String) (hurl : url ≠ "")
    (h : (getByLong st url).1.2 = false) :
    shortenURLHandler st ⟨"POST", p, some url⟩ gen
      = (Response.json 200 ("http://localhost:8080/" ++ gen), save st gen url) := by
  simp only [getByLong] at h
  have h' := GoMap.get_false _ _ h
  simp [shortenURLHandler, getByLong, hurl, h']

theorem shorten_store_cases (st : URLStore) (r : Request) (gen : String) :
    (shortenURLHandler st r gen).2 = st ∨
      ∃ url, (shortenURLHandler st r gen).2 = save st gen url := by
  unfold shortenURLHandler
  split
  · exact Or.inl rfl
  · split
    · exact Or.inl rfl
    · split
      · exact Or.inl rfl
      · split
        · rename_i heq
          exact Or.inl (congrArg Prod.snd heq).symm
        · rename_i url _ _ _ _ _ heq
          have hst : st = _ := (congrArg Prod.snd heq)
          dsimp only at hst
          exact Or.inr ⟨url, by rw [hst]⟩

theorem longMirrored_shorten (st : URLStore) (r : Request) (gen : String)
    (hinv : LongMirrored st)
    (hfree : (shortenURLHandler st r gen).2 = st ∨ (getByShort st gen).1.2 = false) :
    LongMirrored (shortenURLHandler st r gen).2 := by
  rcases hfree with hsame | hfresh
  · rw [hsame]; exact hinv
  · rcases shorten_store_cases st r gen with hsame | ⟨url, hsave⟩
    · rw [hsame]; exact hinv
    · rw [hsave]
      refine longMirrored_save st gen url hinv ?_
      intro other _ hother
      have := hinv other gen hother
      rw [this] at hfresh
      exact Bool.noConfusion hfresh

theorem longMirrored_shortenAll (history : List (Request × String)) :
    ∀ st : URLStore, LongMirrored st → CollisionFree st history →
      LongMirrored (shortenAll st history) := by
  induction history with
  | nil => intro st hinv _; exact hinv
  | cons c rest ih =>
    obtain ⟨r, gen⟩ := c
    intro st hinv hfree
    exact ih _ (longMirrored_shorten st r gen hinv hfree.1) hfree.2

theorem sliceFrom1_slash (str : String) : sliceFrom1 ("/" ++ str) = some str := by
  simp [sliceFrom1, String.data_append]

theorem resolve_hit (st : URLStore) (m shortID url : String) (d : Option String)
    (h : (getByShort st shortID).1 = (url, true)) :
    resolveURLHandler st ⟨m, "/" ++ shortID, d⟩ = some (Response.redirect 302 url, st) := by
  simp only [getByShort] at h
  simp [resolveURLHandler, sliceFrom1_slash, getByShort, h]

theorem append_left_cancel (a b c : String) (h : a ++ b = a ++ c) : b = c := by
  have hd := congrArg String.data h
  simp only [String.data_append] at hd
  exact String.ext (List.append_cancel_left hd)

theorem shorten_response_cases (st : URLStore) (r : Request) (gen : String)
    (status : Nat) (short_url : String)
    (h : (shortenURLHandler st r gen).1 = Response.json status short_url) :
    status = 200 ∧ ∃ shortID, short_url = "http://localhost:8080/" ++ shortID ∧
      (shortID = gen ∨ ∃ url, (getByLong st url).1 = (shortID, true)) := by
  unfold shortenURLHandler at h
  split at h
  · cases h
  · split at h
    · cases h
    · split at h
      · cases h
      · split at h
        · rename_i url _ _ _ shortID _ heq
          cases h
          exact ⟨rfl, shortID, rfl, Or.inr ⟨url, congrArg Prod.fst heq⟩⟩
        · cases h
          exact ⟨rfl, gen, rfl, Or.inl rfl⟩

theorem indexShaped_new : IndexShaped newURLStore := by
  intro url shortID h
  simp [getByLong, newURLStore, GoMap.empty, GoMap.get] at h

theorem indexShaped_shorten (st : URLStore) (r : Request) (gen : String)
    (hinv : IndexShaped st) (hgen : WellShaped gen) :
    IndexShaped (shortenURLHandler st r gen).2 := by
  rcases shorten_store_cases st r gen with hsame | ⟨url, hsave⟩
  · rw [hsame]; exact hinv
  · rw [hsave]
    intro k v hk
    by_cases hku : k = url
    · subst hku
      rw [getByLong_save_same] at hk
      have hv : gen = v := congrArg Prod.fst hk
      rw [← hv]; exact hgen
    · rw [getByLong_save_ne st gen url k hku] at hk
      exact hinv k v hk

theorem indexShaped_shortenAll (history : List (Request × String)) :
    ∀ st : URLStore, IndexShaped st → (∀ e ∈ history, Generated e.2) →
      IndexShaped (shortenAll st history) := by
  induction history with
  | nil => intro st hinv _; exact hinv
  | cons c rest ih =>
    obtain ⟨r, gen⟩ := c
    intro st hinv hgen
    have hg : WellShaped gen := generated_wellShaped gen (hgen (r, gen) (List.mem_cons_self _ _))
    exact ih _ (indexShaped_shorten st r gen hinv hg)
      (fun e he => hgen e (List.mem_cons_of_mem _ he))

theorem resolveURLHandler_rest (st : URLStore) (m rest : String) (d : Option String) :
    resolveURLHandler st ⟨m, "/" ++ rest, d⟩
      = some (if (getByShort st rest).1.2 = true
          then Response.redirect 302 (getByShort st rest).1.1
          else Response.error 404 "URL not found", st) := by
  rcases hget : st.shortToLong.get rest with ⟨url, ok⟩
  cases ok <;> simp [resolveURLHandler, sliceFrom1_slash, getByShort, hget]

theorem path_of_leading_slash (path : String) (h : path.data.head? = some '/') :
    path = "/" ++ String.mk path.data.tail := by
  apply String.ext
  rw [String.data_append]
  cases hd : path.data with
  | nil => rw [hd] at h; cases h
  | cons c cs =>
    rw [hd] at h
    simp only [List.head?_cons, Option.some.injEq] at h
    rw [h]; rfl

theorem shorten_result_cases (st : URLStore) (r : Request) (gen : String) :
    (∃ status msg, shortenURLHandler st r gen = (Response.error status msg, st)) ∨
    (∃ shortID, shortenURLHandler st r gen
      = (Response.json 200 ("http://localhost:8080/" ++ shortID), st)) ∨
    (∃ url, shortenURLHandler st r gen
      = (Response.json 200 ("http://localhost:8080/" ++ gen), save st gen url)) := by
  obtain ⟨m, p, d⟩ := r
  by_cases hm : m = "POST"
  · subst hm
    cases d with
    | none => exact Or.inl ⟨400, "Invalid request body", by simp [shortenURLHandler]⟩
    | some url =>
      by_cases hurl : url = ""
      · exact Or.inl ⟨400, "Invalid request body", by simp [shortenURLHandler, hurl]⟩
      · rcases hget : (getByLong st url).1 with ⟨found, ok⟩
        cases ok with
        | true => exact Or.inr (Or.inl ⟨found, shorten_hit st p url gen found hurl hget⟩)
        | false =>
          have hmiss : (getByLong st url).1.2 = false := by rw [hget]
          exact Or.inr (Or.inr ⟨url, shorten_miss st p url gen hurl hmiss⟩)
  · exact Or.inl ⟨405, "Only POST method is allowed", by simp [shortenURLHandler, hm]⟩

theorem shorten_error_store (st : URLStore) (r : Request) (gen : String)
    (status : Nat) (msg : String)
    (h : (shortenURLHandler st r gen).1 = Response.error status msg) :
    (shortenURLHandler st r gen).2 = st := by
  rcases shorten_result_cases st r gen with ⟨_, _, he⟩ | ⟨_, he⟩ | ⟨_, he⟩
  · rw [he]
  · rw [he]
  · rw [he] at h; cases h

theorem shortenURLHandler_two_steps (st : URLStore) (r : Request) (gen : String) :
    shortenURLHandler st r gen
      = match shortenCheck st r with
        | (Sum.inl resp, st') => (resp, st')
        | (Sum.inr reqURL, st') => shortenCommit st' reqURL gen := by
  unfold shortenURLHandler shortenCheck
  split
  · rfl
  · split
    · rfl
    · split
      · rfl
      · split
        · rename_i heq
          simp only [heq]
        · rename_i heq
          simp only [heq]
          rfl

theorem shortenCheck_miss (st : URLStore) (p url : String) (hurl : url ≠ "")
    (h : (getByLong st url).1.2 = false) :
    shortenCheck st ⟨"POST", p, some url⟩ = (Sum.inr url, st) := by
  simp only [getByLong] at h
  have h' := GoMap.get_false _ _ h
  simp [shortenCheck, getByLong, hurl, h']

theorem getByShort_save_found (st : URLStore) (shortID url k : String)
    (h : (getByShort st k).1.2 = true) :
    (getByShort (save st shortID url) k).1.2 = true := by
  by_cases hk : k = shortID
  · rw [hk, getByShort_save_same]
  · rw [getByShort_save_ne st shortID url k hk]; exact h

theorem getByLong_save_found (st : URLStore) (shortID url k : String)
    (h : (getByLong st k).1.2 = true) :
    (getByLong (save st shortID url) k).1.2 = true := by
  by_cases hk : k = url
  · rw [hk, getByLong_save_same]
  · rw [getByLong_save_ne st shortID url k hk]; exact h

theorem shorten_error_no_generator (st : URLStore) (r : Request) (gen gen' : String)
    (status : Nat) (msg : String)
    (h : (shortenURLHandler st r gen).1 = Response.error status msg) :
    shortenURLHandler st r gen' = shortenURLHandler st r gen := by
  rw [shortenURLHandler_two_steps st r gen] at h ⊢
  rw [shortenURLHandler_two_steps st r gen']
  rcases hc : shortenCheck st r with ⟨res, st'⟩
  cases res with
  | inl resp => rfl
  | inr reqURL =>
    rw [hc] at h
    simp [shortenCommit] at h

/-! ## Lemmas on the `Location` header -/

theorem digitChar_ascii : ∀ n, n < 16 → (Nat.digitChar n).toNat < 128 := by
  decide

theorem toDigitsCore_ascii (fuel : Nat) :
    ∀ (n : Nat) (ds : List Char), (∀ c ∈ ds, c.toNat < 128) →
      ∀ c ∈ Nat.toDigitsCore 16 fuel n ds, c.toNat < 128 := by
  induction fuel with
  | zero => intro n ds hds c hc; exact hds c hc
  | succ fuel ih =>
    intro n ds hds c hc
    have hcons : ∀ x ∈ Nat.digitChar (n % 16) :: ds, x.toNat < 128 := by
      intro x hx
      rcases List.mem_cons.mp hx with hx | hx
      · rw [hx]; exact digitChar_ascii _ (Nat.mod_lt _ (by decide))
      · exact hds x hx
    unfold Nat.toDigitsCore at hc
    dsimp only at hc
    split_ifs at hc
    · exact hcons c hc
    · exact ih _ _ hcons c hc

theorem hexEscapeNonASCII_ascii (s : String) :
    ∀ c ∈ (hexEscapeNonASCII s).data, c.toNat < 128 := by
  intro c hc
  obtain ⟨b, _, hcb⟩ := List.mem_flatMap.mp hc
  by_cases hb : b.toNat < 128
  · rw [if_pos hb, List.mem_singleton] at hcb
    rw [hcb]; exact hb
  · rw [if_neg hb] at hcb
    rcases List.mem_cons.mp hcb with hcb | hcb
    · rw [hcb]; decide
    · exact toDigitsCore_ascii _ _ [] (fun x hx => by cases hx) c hcb

theorem flatMap_keep_ascii (cs : List Char) (h : ∀ c ∈ cs, c.toNat < 128) :
    cs.flatMap (fun c => if c.toNat < 128 then [c] else '%' :: Nat.toDigits 16 c.toNat)
      = cs := by
  induction cs with
  | nil => rfl
  | cons c rest ih =>
    rw [List.flatMap_cons, if_pos (h c (List.mem_cons_self _ _)),
      ih (fun x hx => h x (List.mem_cons_of_mem _ hx))]
    rfl

theorem hexEscapeNonASCII_of_ascii (s : String) (h : ∀ c ∈ s.data, c.toNat < 128) :
    hexEscapeNonASCII s = s := by
  apply String.ext
  exact flatMap_keep_ascii s.data h

theorem locationHeader_of_unchanged (rewrite : String → String → String) (r : Request)
    (status : Nat) (url : String) (hsame : rewrite r.path url = url)
    (hascii : ∀ c ∈ url.data, c.toNat < 128) :
    locationHeader rewrite r (Response.redirect status url) = some url := by
  simp only [locationHeader, hsame, hexEscapeNonASCII_of_ascii url hascii]

theorem locationHeader_ne_of_nonASCII (rewrite : String → String → String) (r : Request)
    (status : Nat) (url : String) (h : ∃ c ∈ url.data, 128 ≤ c.toNat) :
    locationHeader rewrite r (Response.redirect status url) ≠ some url := by
  intro heq
  obtain ⟨c, hc, hbig⟩ := h
  simp only [locationHeader, Option.some.injEq] at heq
  have := hexEscapeNonASCII_ascii (rewrite r.path url) c (by rw [heq]; exact hc)
  omega

theorem resolveLocation_of_redirect (rewrite : String → String → String)
    (st st' : URLStore) (r : Request) (url : String)
    (h : resolveURLHandler st r = some (Response.redirect 302 url, st')) :
    resolveLocation rewrite st r = some (hexEscapeNonASCII (rewrite r.path url)) ∧
    ((rewrite r.path url = url ∧ ∀ c ∈ url.data, c.toNat < 128) →
      resolveLocation rewrite st r = some url) ∧
    ((∃ c ∈ url.data, 128 ≤ c.toNat) → resolveLocation rewrite st r ≠ some url) := by
  have hloc : resolveLocation rewrite st r
      = locationHeader rewrite r (Response.redirect 302 url) := by
    simp only [resolveLocation, h, Option.some_bind]
  refine ⟨by rw [hloc]; rfl, ?_, ?_⟩
  · intro hsame
    rw [hloc]
    exact locationHeader_of_unchanged rewrite r 302 url hsame.1 hsame.2
  · intro hbig
    rw [hloc]
    exact locationHeader_ne_of_nonASCII rewrite r 302 url hbig

theorem shorten_then_resolve_call (history : List (Request × String))
    (hfree : CollisionFree newURLStore history)
    (url gen shortID p m : String) (d : Option String) (hurl : url ≠ "")
    (hanswer : (shortenURLHandler (shortenAll newURLStore history)
        ⟨"POST", p, some url⟩ gen).1
      = Response.json 200 ("http://localhost:8080/" ++ shortID)) :
    resolveURLHandler
        (shortenURLHandler (shortenAll newURLStore history) ⟨"POST", p, some url⟩ gen).2
        ⟨m, "/" ++ shortID, d⟩
      = some (Response.redirect 302 url,
          (shortenURLHandler (shortenAll newURLStore history)
            ⟨"POST", p, some url⟩ gen).2) := by
  have hinv : LongMirrored (shortenAll newURLStore history) :=
    longMirrored_shortenAll history newURLStore longMirrored_new hfree
  generalize shortenAll newURLStore history = st at hinv hanswer ⊢
  rcases hget : (getByLong st url).1 with ⟨found, ok⟩
  cases ok with
  | true =>
    rw [shorten_hit st p url gen found hurl hget] at hanswer ⊢
    have hid : found = shortID :=
      append_left_cancel _ _ _ (Response.json.inj hanswer).2
    subst hid
    exact resolve_hit st m found url d (hinv url found hget)
  | false =>
    have hmiss : (getByLong st url).1.2 = false := by rw [hget]
    rw [shorten_miss st p url gen hurl hmiss] at hanswer ⊢
    have hid : gen = shortID :=
      append_left_cancel _ _ _ (Response.json.inj hanswer).2
    subst hid
    exact resolve_hit _ m gen url d (getByShort_save_same st gen url)

/-! ## Claims -/

/-- C1, as stated, fails: after `save("a", "x")` and `save("b", "x")` on the empty
registry, `getByShort("a")` is `("x", true)` but `getByLong("x")` is `("b", true)`. -/
theorem bidirectional_consistency_fails :
    (getByShort (saveAll newURLStore [("a", "x"), ("b", "x")]) "a").1 = ("x", true) ∧
    (getByLong (saveAll newURLStore [("a", "x"), ("b", "x")]) "x").1 = ("b", true) ∧
    (getByLong (saveAll newURLStore [("a", "x"), ("b", "x")]) "x").1 ≠ ("a", true) := by
  decide

/-- C1, amended: in every registry reached from the empty one by `save(s, u)` calls
each made when no identifier other than `s` resolves to `u`, every short
identifier `s` with `getByShort(s) = (u, true)` has `getByLong(u) = (s, true)`. -/
theorem bidirectional_consistency (calls : List (String × String))
    (hcalls : NoSecondIdentifier newURLStore calls) (shortID url : String)
    (hs : (getByShort (saveAll newURLStore calls) shortID).1 = (url, true)) :
    (getByLong (saveAll newURLStore calls) url).1 = (shortID, true) :=
  shortMirrored_saveAll calls newURLStore shortMirrored_new hcalls shortID url hs

/-- Witness of C1 amended: `save("a","x")`, `save("a","y")`, `save("b","x")`; `"b"`
resolves to `"x"` and `"x"` is indexed under `"b"`. -/
theorem bidirectional_consistency_witness :
    NoSecondIdentifier newURLStore [("a", "x"), ("a", "y"), ("b", "x")] ∧
    (getByShort (saveAll newURLStore [("a", "x"), ("a", "y"), ("b", "x")]) "b").1
      = ("x", true) ∧
    (getByLong (saveAll newURLStore [("a", "x"), ("a", "y"), ("b", "x")]) "x").1
      = ("b", true) :=
  have h : NoSecondIdentifier newURLStore [("a", "x"), ("a", "y"), ("b", "x")] := by
    refine ⟨?_, ?_, ?_, trivial⟩
    · intro other _
      simp [getByShort, newURLStore, GoMap.empty, GoMap.get]
    · intro other ho
      have ho' : ¬ "a" = other := fun h => ho h.symm
      simp [getByShort, save, newURLStore, GoMap.empty, GoMap.set, GoMap.get, ho']
    · intro other ho
      by_cases ha : "a" = other
      · subst ha; decide
      · simp [getByShort, save, newURLStore, GoMap.empty, GoMap.set, GoMap.get, ha]
  ⟨h, by decide, bidirectional_consistency _ h "b" "x" (by decide)⟩

/-- C2, as stated, fails: after `save("a", "x")` and `save("a", "y")` on the empty
registry, `getByLong("x")` is `("a", true)` but `getByShort("a")` is `("y", true)`. -/
theorem converse_consistency_fails :
    (getByLong (saveAll newURLStore [("a", "x"), ("a", "y")]) "x").1 = ("a", true) ∧
    (getByShort (saveAll newURLStore [("a", "x"), ("a", "y")]) "a").1 = ("y", true) ∧
    (getByShort (saveAll newURLStore [("a", "x"), ("a", "y")]) "a").1 ≠ ("x", true) := by
  decide

/-- C2, amended: in every registry reached from the empty one by `save(s, u)` calls
each made when no URL other than `u` is indexed under `s`, every URL `u` with
`getByLong(u) = (s, true)` has `getByShort(s) = (u, true)`. -/
theorem converse_consistency (calls : List (String × String))
    (hcalls : NoSecondURL newURLStore calls) (url shortID : String)
    (hu : (getByLong (saveAll newURLStore calls) url).1 = (shortID, true)) :
    (getByShort (saveAll newURLStore calls) shortID).1 = (url, true) :=
  longMirrored_saveAll calls newURLStore longMirrored_new hcalls url shortID hu

/-- Witness of C2 amended: `save("a","x")`, `save("b","x")`, `save("c","y")`; `"x"` is
indexed under `"b"` and `"b"` resolves to `"x"`. -/
theorem converse_consistency_witness :
    NoSecondURL newURLStore [("a", "x"), ("b", "x"), ("c", "y")] ∧
    (getByLong (saveAll newURLStore [("a", "x"), ("b", "x"), ("c", "y")]) "x").1
      = ("b", true) ∧
    (getByShort (saveAll newURLStore [("a", "x"), ("b", "x"), ("c", "y")]) "b").1
      = ("x", true) :=
  have h : NoSecondURL newURLStore [("a", "x"), ("b", "x"), ("c", "y")] := by
    refine ⟨?_, ?_, ?_, trivial⟩
    · intro other _
      simp [getByLong, newURLStore, GoMap.empty, GoMap.get]
    · intro other ho
      have ho' : ¬ "x" = other := fun h => ho h.symm
      simp [getByLong, save, newURLStore, GoMap.empty, GoMap.set, GoMap.get, ho']
    · intro other ho
      by_cases hx : "x" = other
      · subst hx; decide
      · simp [getByLong, save, newURLStore, GoMap.empty, GoMap.set, GoMap.get, hx]
  ⟨h, by decide, converse_consistency _ h "x" "b" (by decide)⟩

/-- C3, as stated, fails: on the registry holding `("a", "x")`, the call
`save("a", "y")` changes what `getByShort("a")` returns from `("x", true)` to
`("y", true)`. -/
theorem append_only_fails :
    (getByShort (save newURLStore "a" "x") "a").1 = ("x", true) ∧
    (getByShort (save (save newURLStore "a" "x") "a" "y") "a").1 = ("y", true) ∧
    (getByShort (save (save newURLStore "a" "x") "a" "y") "a").1 ≠ ("x", true) := by
  decide

/-- C3, amended: if `getByShort(s) = (u, true)`, then after any `save(s', u')` the
identifier `s` is still found, and `getByShort(s)` is still `(u, true)` whenever
`s'` differs from `s` or `u'` equals `u`. -/
theorem registered_pair_kept (st : URLStore) (shortID url shortID' url' : String)
    (h : (getByShort st shortID).1 = (url, true)) :
    (getByShort (save st shortID' url') shortID).1.2 = true ∧
    ((shortID' ≠ shortID ∨ url' = url) →
      (getByShort (save st shortID' url') shortID).1 = (url, true)) := by
  by_cases hs : shortID = shortID'
  · subst hs
    rw [getByShort_save_same]
    refine ⟨rfl, ?_⟩
    intro hor
    rcases hor with hne | he
    · exact absurd rfl hne
    · rw [he]
  · rw [getByShort_save_ne st shortID' url' shortID hs, h]
    exact ⟨rfl, fun _ => rfl⟩

/-- Witness of C3 amended: the pair `("a", "x")` and the later call `save("b", "y")`. -/
theorem registered_pair_kept_witness :
    (getByShort (save newURLStore "a" "x") "a").1 = ("x", true) ∧
    (getByShort (save (save newURLStore "a" "x") "b" "y") "a").1.2 = true ∧
    (getByShort (save (save newURLStore "a" "x") "b" "y") "a").1 = ("x", true) :=
  have h := registered_pair_kept (save newURLStore "a" "x") "a" "x" "b" "y" (by decide)
  ⟨by decide, h.1, h.2 (Or.inl (by decide))⟩

/-- C4: right after `save(s, u)`, on any registry, `getByShort(s)` is `(u, true)` and
`getByLong(u)` is `(s, true)`. -/
theorem save_round_trip (st : URLStore) (shortID url : String) :
    (getByShort (save st shortID url) shortID).1 = (url, true) ∧
    (getByLong (save st shortID url) url).1 = (shortID, true) :=
  ⟨getByShort_save_same st shortID url, getByLong_save_same st shortID url⟩

/-- C5, as stated, fails, in two ways.  Two Shorten requests, for
`https://example.com` and for `https://example.org`, both draw `AbC123`; a third
request for `https://example.com` then answers `AbC123`, and resolving `/AbC123`
redirects to `https://example.org`, not to `https://example.com`.  And on the
empty registry, after a Shorten request for `https://example.com/é` (its `é` the
two bytes `c3 a9`) answered `AbC123`, the `Location` header of the answer to
`/AbC123` is `https://example.com/%c3%a9` when the library leaves the URL to the
escaping alone, and is not the URL itself whatever its rewriting step does. -/
theorem shorten_then_resolve_fails :
    (shortenURLHandler
        (shortenAll newURLStore
          [(⟨"POST", "/shorten", some "https://example.com"⟩, "AbC123"),
           (⟨"POST", "/shorten", some "https://example.org"⟩, "AbC123")])
        ⟨"POST", "/shorten", some "https://example.com"⟩ "zzzzzz").1
      = Response.json 200 ("http://localhost:8080/" ++ "AbC123") ∧
    resolveURLHandler
        (shortenURLHandler
          (shortenAll newURLStore
            [(⟨"POST", "/shorten", some "https://example.com"⟩, "AbC123"),
             (⟨"POST", "/shorten", some "https://example.org"⟩, "AbC123")])
          ⟨"POST", "/shorten", some "https://example.com"⟩ "zzzzzz").2
        ⟨"GET", "/" ++ "AbC123", none⟩
      = some (Response.redirect 302 "https://example.org",
          (shortenURLHandler
            (shortenAll newURLStore
              [(⟨"POST", "/shorten", some "https://example.com"⟩, "AbC123"),
               (⟨"POST", "/shorten", some "https://example.org"⟩, "AbC123")])
            ⟨"POST", "/shorten", some "https://example.com"⟩ "zzzzzz").2) ∧
    resolveURLHandler
        (shortenURLHandler
          (shortenAll newURLStore
            [(⟨"POST", "/shorten", some "https://example.com"⟩, "AbC123"),
             (⟨"POST", "/shorten", some "https://example.org"⟩, "AbC123")])
          ⟨"POST", "/shorten", some "https://example.com"⟩ "zzzzzz").2
        ⟨"GET", "/" ++ "AbC123", none⟩
      ≠ some (Response.redirect 302 "https://example.com",
          (shortenURLHandler
            (shortenAll newURLStore
              [(⟨"POST", "/shorten", some "https://example.com"⟩, "AbC123"),
               (⟨"POST", "/shorten", some "https://example.org"⟩, "AbC123")])
            ⟨"POST", "/shorten", some "https://example.com"⟩ "zzzzzz").2) ∧
    (shortenURLHandler newURLStore
        ⟨"POST", "/shorten", some "https://example.com/\xc3\xa9"⟩ "AbC123").1
      = Response.json 200 ("http://localhost:8080/" ++ "AbC123") ∧
    resolveLocation (fun _ url => url)
        (shortenURLHandler newURLStore
          ⟨"POST", "/shorten", some "https://example.com/\xc3\xa9"⟩ "AbC123").2
        ⟨"GET", "/" ++ "AbC123", none⟩
      = some "https://example.com/%c3%a9" ∧
    ¬ ∃ rewrite : String → String → String,
      resolveLocation rewrite
          (shortenURLHandler newURLStore
            ⟨"POST", "/shorten", some "https://example.com/\xc3\xa9"⟩ "AbC123").2
          ⟨"GET", "/" ++ "AbC123", none⟩
        = some "https://example.com/\xc3\xa9" := by
  refine ⟨by decide, by decide, by decide, by decide, by decide, ?_⟩
  rintro ⟨rewrite, h⟩
  have hcall : resolveURLHandler
      (shortenURLHandler newURLStore
        ⟨"POST", "/shorten", some "https://example.com/\xc3\xa9"⟩ "AbC123").2
      ⟨"GET", "/" ++ "AbC123", none⟩
      = some (Response.redirect 302 "https://example.com/\xc3\xa9",
          (shortenURLHandler newURLStore
            ⟨"POST", "/shorten", some "https://example.com/\xc3\xa9"⟩ "AbC123").2) := by
    decide
  exact (resolveLocation_of_redirect rewrite _ _ _ _ hcall).2.2
    ⟨'\xc3', by decide, by decide⟩ h

/-- C5, amended: on a registry reached from the empty one by Shorten requests none
of which overwrote an identifier already in use, if a Shorten request for a
non-empty URL `u` answers with short identifier `s`, the resolve request for
`/s` that follows is a hit: the handler answers through `http.Redirect` with
status 302 and `u` as target.  The `Location` header is `u` as the library
rewrites and escapes it: it is `u` itself where the rewriting leaves `u` as it
is and `u` is all ASCII, and it is never `u` when `u` holds a non-ASCII byte. -/
theorem shorten_then_resolve (history : List (Request × String))
    (hfree : CollisionFree newURLStore history)
    (url gen shortID p m : String) (d : Option String) (hurl : url ≠ "")
    (hanswer : (shortenURLHandler (shortenAll newURLStore history)
        ⟨"POST", p, some url⟩ gen).1
      = Response.json 200 ("http://localhost:8080/" ++ shortID)) :
    resolveURLHandler
        (shortenURLHandler (shortenAll newURLStore history) ⟨"POST", p, some url⟩ gen).2
        ⟨m, "/" ++ shortID, d⟩
      = some (Response.redirect 302 url,
          (shortenURLHandler (shortenAll newURLStore history)
            ⟨"POST", p, some url⟩ gen).2) ∧
    ∀ rewrite : String → String → String,
      resolveLocation rewrite
          (shortenURLHandler (shortenAll newURLStore history)
            ⟨"POST", p, some url⟩ gen).2 ⟨m, "/" ++ shortID, d⟩
        = some (hexEscapeNonASCII (rewrite ("/" ++ shortID) url)) ∧
      ((rewrite ("/" ++ shortID) url = url ∧ ∀ c ∈ url.data, c.toNat < 128) →
        resolveLocation rewrite
            (shortenURLHandler (shortenAll newURLStore history)
              ⟨"POST", p, some url⟩ gen).2 ⟨m, "/" ++ shortID, d⟩
          = some url) ∧
      ((∃ c ∈ url.data, 128 ≤ c.toNat) →
        resolveLocation rewrite
            (shortenURLHandler (shortenAll newURLStore history)
              ⟨"POST", p, some url⟩ gen).2 ⟨m, "/" ++ shortID, d⟩
          ≠ some url) := by
  have hcall := shorten_then_resolve_call history hfree url gen shortID p m d hurl hanswer
  exact ⟨hcall, fun rewrite => resolveLocation_of_redirect rewrite _ _ _ url hcall⟩

/-- Witness of C5 amended: after a request for `https://example.org` that drew
`zzzzzz`, the request for `https://example.com` draws and answers `AbC123`;
`/AbC123` is answered through `http.Redirect` with `https://example.com`, which
is also the `Location` header when the library leaves that URL as it is. -/
theorem shorten_then_resolve_witness :
    CollisionFree newURLStore
      [(⟨"POST", "/shorten", some "https://example.org"⟩, "zzzzzz")] ∧
    resolveURLHandler
        (shortenURLHandler
          (shortenAll newURLStore
            [(⟨"POST", "/shorten", some "https://example.org"⟩, "zzzzzz")])
          ⟨"POST", "/shorten", some "https://example.com"⟩ "AbC123").2
        ⟨"GET", "/" ++ "AbC123", none⟩
      = some (Response.redirect 302 "https://example.com",
          (shortenURLHandler
            (shortenAll newURLStore
              [(⟨"POST", "/shorten", some "https://example.org"⟩, "zzzzzz")])
            ⟨"POST", "/shorten", some "https://example.com"⟩ "AbC123").2) ∧
    resolveLocation (fun _ url => url)
        (shortenURLHandler
          (shortenAll newURLStore
            [(⟨"POST", "/shorten", some "https://example.org"⟩, "zzzzzz")])
          ⟨"POST", "/shorten", some "https://example.com"⟩ "AbC123").2
        ⟨"GET", "/" ++ "AbC123", none⟩
      = some "https://example.com" :=
  have h : CollisionFree newURLStore
      [(⟨"POST", "/shorten", some "https://example.org"⟩, "zzzzzz")] :=
    ⟨Or.inr (by decide), trivial⟩
  have hthm := shorten_then_resolve _ h "https://example.com" "AbC123" "AbC123" "/shorten"
    "GET" none (by decide) (by decide)
  ⟨h, hthm.1, (hthm.2 (fun _ url => url)).2.1 ⟨rfl, by decide⟩⟩

/-- C6: on any registry, two consecutive Shorten requests for the same non-empty
URL, whatever the generator would return to each, are both answered with the
same `short_url`, and the second leaves both tables as the first left them. -/
theorem shorten_idempotent (st : URLStore) (url gen1 gen2 p1 p2 : String)
    (hurl : url ≠ "") :
    (∃ shortID,
      (shortenURLHandler st ⟨"POST", p1, some url⟩ gen1).1
        = Response.json 200 ("http://localhost:8080/" ++ shortID) ∧
      (shortenURLHandler (shortenURLHandler st ⟨"POST", p1, some url⟩ gen1).2
          ⟨"POST", p2, some url⟩ gen2).1
        = Response.json 200 ("http://localhost:8080/" ++ shortID)) ∧
    (shortenURLHandler (shortenURLHandler st ⟨"POST", p1, some url⟩ gen1).2
        ⟨"POST", p2, some url⟩ gen2).2.shortToLong
      = (shortenURLHandler st ⟨"POST", p1, some url⟩ gen1).2.shortToLong ∧
    (shortenURLHandler (shortenURLHandler st ⟨"POST", p1, some url⟩ gen1).2
        ⟨"POST", p2, some url⟩ gen2).2.longToShort
      = (shortenURLHandler st ⟨"POST", p1, some url⟩ gen1).2.longToShort := by
  rcases hget : (getByLong st url).1 with ⟨found, ok⟩
  cases ok with
  | true =>
    rw [shorten_hit st p1 url gen1 found hurl hget,
      shorten_hit st p2 url gen2 found hurl hget]
    exact ⟨⟨found, rfl, rfl⟩, rfl, rfl⟩
  | false =>
    have hmiss : (getByLong st url).1.2 = false := by rw [hget]
    rw [shorten_miss st p1 url gen1 hurl hmiss,
      shorten_hit (save st gen1 url) p2 url gen2 gen1 hurl (getByLong_save_same st gen1 url)]
    exact ⟨⟨gen1, rfl, rfl⟩, rfl, rfl⟩

/-- Witness of C6: on the empty registry, two requests for `https://example.com`,
the generator holding `AbC123` for the first and `zzzzzz` for the second. -/
theorem shorten_idempotent_witness :
    (∃ shortID,
      (shortenURLHandler newURLStore
          ⟨"POST", "/shorten", some "https://example.com"⟩ "AbC123").1
        = Response.json 200 ("http://localhost:8080/" ++ shortID) ∧
      (shortenURLHandler
          (shortenURLHandler newURLStore
            ⟨"POST", "/shorten", some "https://example.com"⟩ "AbC123").2
          ⟨"POST", "/shorten", some "https://example.com"⟩ "zzzzzz").1
        = Response.json 200 ("http://localhost:8080/" ++ shortID)) ∧
    (shortenURLHandler
        (shortenURLHandler newURLStore
          ⟨"POST", "/shorten", some "https://example.com"⟩ "AbC123").2
        ⟨"POST", "/shorten", some "https://example.com"⟩ "zzzzzz").2.shortToLong
      = (shortenURLHandler newURLStore
          ⟨"POST", "/shorten", some "https://example.com"⟩ "AbC123").2.shortToLong ∧
    (shortenURLHandler
        (shortenURLHandler newURLStore
          ⟨"POST", "/shorten", some "https://example.com"⟩ "AbC123").2
        ⟨"POST", "/shorten", some "https://example.com"⟩ "zzzzzz").2.longToShort
      = (shortenURLHandler newURLStore
          ⟨"POST", "/shorten", some "https://example.com"⟩ "AbC123").2.longToShort :=
  shorten_idempotent newURLStore "https://example.com" "AbC123" "zzzzzz" "/shorten"
    "/shorten" (by decide)

/-- C7: after `save(s, u1)` then `save(s, u2)`, on any registry, `getByShort(s)` is
`(u2, true)`: the second call goes through and replaces the pair, so that `s` no
longer resolves to `u1` when `u1` differs from `u2`. -/
theorem save_overwrites (st : URLStore) (shortID url1 url2 : String) :
    (getByShort (save (save st shortID url1) shortID url2) shortID).1 = (url2, true) ∧
    (url1 ≠ url2 →
      (getByShort (save (save st shortID url1) shortID url2) shortID).1 ≠ (url1, true)) := by
  rw [getByShort_save_same]
  refine ⟨rfl, fun hne h => hne ?_⟩
  exact (congrArg Prod.fst h).symm

/-- Witness of C7: on the empty registry, `save("a", "x")` then `save("a", "y")`. -/
theorem save_overwrites_witness :
    "x" ≠ "y" ∧
    (getByShort (save (save newURLStore "a" "x") "a" "y") "a").1 = ("y", true) ∧
    (getByShort (save (save newURLStore "a" "x") "a" "y") "a").1 ≠ ("x", true) :=
  have h := save_overwrites newURLStore "a" "x" "y"
  ⟨by decide, h.1, h.2 (by decide)⟩

/-- C8: on a registry reached from the empty one by `save` calls, an identifier that
was the `shortID` of none of them is reported not found, with the empty string. -/
theorem resolve_miss (calls : List (String × String)) (shortID : String)
    (h : shortID ∉ calls.map Prod.fst) :
    (getByShort (saveAll newURLStore calls) shortID).1 = ("", false) :=
  getByShort_saveAll_miss calls shortID h newURLStore rfl

/-- Witness of C8: after `save("a", "x")` and `save("b", "y")`, `"x"` is not found. -/
theorem resolve_miss_witness :
    "x" ∉ [("a", "x"), ("b", "y")].map Prod.fst ∧
    (getByShort (saveAll newURLStore [("a", "x"), ("b", "y")]) "x").1 = ("", false) :=
  ⟨by decide, resolve_miss [("a", "x"), ("b", "y")] "x" (by decide)⟩

/-- C9: on a registry reached from the empty one by `save` calls, a URL that was the
`originalURL` of none of them is reported not found by `getByLong`. -/
theorem find_existing_miss (calls : List (String × String)) (url : String)
    (h : url ∉ calls.map Prod.snd) :
    (getByLong (saveAll newURLStore calls) url).1.2 = false := by
  rw [getByLong_saveAll_miss calls url h newURLStore rfl]

/-- Witness of C9: after `save("a", "x")` and `save("b", "y")`, `"a"` is no known URL. -/
theorem find_existing_miss_witness :
    "a" ∉ [("a", "x"), ("b", "y")].map Prod.snd ∧
    (getByLong (saveAll newURLStore [("a", "x"), ("b", "y")]) "a").1.2 = false :=
  ⟨by decide, find_existing_miss [("a", "x"), ("b", "y")] "a" (by decide)⟩

/-- C10: `getByShort` and `getByLong` leave both tables as they were, and a second
call on the same argument returns what the first returned. -/
theorem lookups_pure (st : URLStore) (k : String) :
    (getByShort st k).2.shortToLong = st.shortToLong ∧
    (getByShort st k).2.longToShort = st.longToShort ∧
    (getByLong st k).2.shortToLong = st.shortToLong ∧
    (getByLong st k).2.longToShort = st.longToShort ∧
    (getByShort (getByShort st k).2 k).1 = (getByShort st k).1 ∧
    (getByLong (getByLong st k).2 k).1 = (getByLong st k).1 :=
  ⟨rfl, rfl, rfl, rfl, rfl, rfl⟩

/-- C11: for every random source whose draws all lie in 0..61, `generateShortID`
returns a string of exactly 6 symbols, the `i`-th being `base62Chars` at the
`i`-th drawn index (an index in range), and every symbol is one of the 62
symbols of `base62Chars`, each a lowercase letter, an uppercase letter or a digit. -/
theorem generateShortID_shape (draw : Nat → Nat) (h : ∀ i, draw i < 62) :
    base62Chars.length = 62 ∧
    ∃ shortID, generateShortID draw = some shortID ∧ shortID.length = shortIDLen ∧
      (∀ i, i < shortIDLen →
        byteAt shortID i = byteAt base62Chars (draw i) ∧ (byteAt shortID i).isSome = true) ∧
      ∀ c ∈ shortID.data,
        c ∈ base62Chars.data ∧ (c.isLower || c.isUpper || c.isDigit) = true := by
  refine ⟨by decide, ?_⟩
  obtain ⟨cs, hcs, hlen, hget, hmem⟩ := generateLoop_shape draw h shortIDLen 0
  refine ⟨String.mk cs, ?_, hlen, ?_, ?_⟩
  · simp only [generateShortID, hcs, Option.map_some']
  · intro i hi
    have hi' := hget i hi
    rw [Nat.zero_add] at hi'
    refine ⟨hi', ?_⟩
    obtain ⟨c, hc, _⟩ := byteAt_base62Chars (draw i) (h i)
    show (cs.get? i).isSome = true
    rw [hi', hc]; rfl
  · intro c hc
    exact ⟨hmem c hc, base62Chars_classes c (hmem c hc)⟩

/-- Witness of C11: the draws `0, 10, 20, 30, 40, 50` give `akuEOY`. -/
theorem generateShortID_shape_witness :
    (∀ i, (fun i => i * 10 % 62) i < 62) ∧
    generateShortID (fun i => i * 10 % 62) = some "akuEOY" ∧
    (base62Chars.length = 62 ∧
    ∃ shortID, generateShortID (fun i => i * 10 % 62) = some shortID ∧
      shortID.length = shortIDLen ∧
      (∀ i, i < shortIDLen →
        byteAt shortID i = byteAt base62Chars ((fun i => i * 10 % 62) i) ∧
          (byteAt shortID i).isSome = true) ∧
      ∀ c ∈ shortID.data,
        c ∈ base62Chars.data ∧ (c.isLower || c.isUpper || c.isDigit) = true) :=
  have h : ∀ i, (fun i => i * 10 % 62) i < 62 := fun i => Nat.mod_lt _ (by decide)
  ⟨h, by decide, generateShortID_shape (fun i => i * 10 % 62) h⟩

/-- C12: on a registry reached from the empty one by Shorten requests whose
identifiers all came from `generateShortID`, every successful Shorten response
carries `short_url` equal to `http://localhost:8080/` followed by exactly 6
symbols of `base62Chars`, whether the identifier is fresh or was found. -/
theorem shorten_response_shape (history : List (Request × String))
    (hhistory : ∀ e ∈ history, Generated e.2) (r : Request) (gen : String)
    (hgen : Generated gen) (status : Nat) (short_url : String)
    (hresp : (shortenURLHandler (shortenAll newURLStore history) r gen).1
      = Response.json status short_url) :
    status = 200 ∧ ∃ shortID, short_url = "http://localhost:8080/" ++ shortID ∧
      shortID.length = shortIDLen ∧ ∀ c ∈ shortID.data, c ∈ base62Chars.data := by
  have hinv : IndexShaped (shortenAll newURLStore history) :=
    indexShaped_shortenAll history newURLStore indexShaped_new hhistory
  obtain ⟨hstatus, shortID, hurl, hsrc⟩ :=
    shorten_response_cases _ r gen status short_url hresp
  refine ⟨hstatus, shortID, hurl, ?_⟩
  rcases hsrc with hfresh | ⟨url, hfound⟩
  · rw [hfresh]; exact generated_wellShaped gen hgen
  · exact hinv url shortID hfound

/-- Witness of C12: after a request for `https://example.org` that drew `zzzzzz`, a
second request for the same URL, the generator holding `aaaaaa`, answers
`http://localhost:8080/zzzzzz`. -/
theorem shorten_response_shape_witness :
    (shortenURLHandler
        (shortenAll newURLStore
          [(⟨"POST", "/shorten", some "https://example.org"⟩, "zzzzzz")])
        ⟨"POST", "/shorten", some "https://example.org"⟩ "aaaaaa").1
      = Response.json 200 "http://localhost:8080/zzzzzz" ∧
    (200 = 200 ∧ ∃ shortID, "http://localhost:8080/zzzzzz" = "http://localhost:8080/" ++ shortID ∧
      shortID.length = shortIDLen ∧ ∀ c ∈ shortID.data, c ∈ base62Chars.data) :=
  have hz : Generated "zzzzzz" := ⟨fun _ => 25, fun _ => (by decide : 25 < 62), by decide⟩
  have ha : Generated "aaaaaa" := ⟨fun _ => 0, fun _ => (by decide : 0 < 62), by decide⟩
  ⟨by decide,
    shorten_response_shape [(⟨"POST", "/shorten", some "https://example.org"⟩, "zzzzzz")]
      (fun e he => by
        rw [List.mem_singleton] at he
        rw [he]; exact hz)
      ⟨"POST", "/shorten", some "https://example.org"⟩ "aaaaaa" ha 200
      "http://localhost:8080/zzzzzz" (by decide)⟩

/-- C13: on any registry, a Shorten request whose method is not POST is answered
405, and a POST request whose body does not decode or whose `url` is empty or
missing is answered 400; every request answered with an error leaves both
tables as they were, and its outcome does not depend on the generator. -/
theorem shorten_rejects (st : URLStore) (r : Request) (gen : String) :
    (r.method ≠ "POST" →
      shortenURLHandler st r gen = (Response.error 405 "Only POST method is allowed", st)) ∧
    (r.method = "POST" → (r.decoded = none ∨ r.decoded = some "") →
      shortenURLHandler st r gen = (Response.error 400 "Invalid request body", st)) ∧
    (∀ status msg, (shortenURLHandler st r gen).1 = Response.error status msg →
      (shortenURLHandler st r gen).2.shortToLong = st.shortToLong ∧
      (shortenURLHandler st r gen).2.longToShort = st.longToShort ∧
      ∀ other, shortenURLHandler st r other = shortenURLHandler st r gen) := by
  refine ⟨?_, ?_, ?_⟩
  · intro hm
    simp [shortenURLHandler, hm]
  · intro hm hd
    rcases hd with hd | hd <;> simp [shortenURLHandler, hm, hd]
  · intro status msg h
    refine ⟨?_, ?_, fun other => shorten_error_no_generator st r gen other status msg h⟩
    · rw [shorten_error_store st r gen status msg h]
    · rw [shorten_error_store st r gen status msg h]

/-- Witness of C13: on a registry holding one pair, a GET request is answered 405,
a POST whose body does not decode 400, a POST with an empty `url` 400, and the
registry is the same after each. -/
theorem shorten_rejects_witness :
    shortenURLHandler (save newURLStore "AbC123" "https://example.com")
        ⟨"GET", "/shorten", some "https://example.org"⟩ "zzzzzz"
      = (Response.error 405 "Only POST method is allowed",
          save newURLStore "AbC123" "https://example.com") ∧
    shortenURLHandler (save newURLStore "AbC123" "https://example.com")
        ⟨"POST", "/shorten", none⟩ "zzzzzz"
      = (Response.error 400 "Invalid request body",
          save newURLStore "AbC123" "https://example.com") ∧
    shortenURLHandler (save newURLStore "AbC123" "https://example.com")
        ⟨"POST", "/shorten", some ""⟩ "zzzzzz"
      = (Response.error 400 "Invalid request body",
          save newURLStore "AbC123" "https://example.com") :=
  ⟨(shorten_rejects (save newURLStore "AbC123" "https://example.com")
      ⟨"GET", "/shorten", some "https://example.org"⟩ "zzzzzz").1 (by decide),
    (shorten_rejects (save newURLStore "AbC123" "https://example.com")
      ⟨"POST", "/shorten", none⟩ "zzzzzz").2.1 rfl (Or.inl rfl),
    (shorten_rejects (save newURLStore "AbC123" "https://example.com")
      ⟨"POST", "/shorten", some ""⟩ "zzzzzz").2.1 rfl (Or.inr rfl)⟩

/-- C14, as stated, fails: for the path `/a/b` the identifier looked up is `a/b`,
not the first segment `a`; on a registry where `a` resolves to `x` the request
is answered 404. -/
theorem first_segment_fails :
    sliceFrom1 "/a/b" = some "a/b" ∧
    specFirstSegment "/a/b" = "a" ∧
    (getByShort (save newURLStore "a" "x") (specFirstSegment "/a/b")).1 = ("x", true) ∧
    resolveURLHandler (save newURLStore "a" "x") ⟨"GET", "/a/b", none⟩
      = some (Response.error 404 "URL not found", save newURLStore "a" "x") := by
  decide

/-- C14, amended: for every path beginning with `/`, the identifier the resolve
handler looks up is the whole of the path after that first `/`; it is the first
path segment exactly when the path holds no further `/`. -/
theorem identifier_is_rest_of_path (st : URLStore) (m rest : String) (d : Option String) :
    sliceFrom1 ("/" ++ rest) = some rest ∧
    resolveURLHandler st ⟨m, "/" ++ rest, d⟩
      = some (if (getByShort st rest).1.2 = true
          then Response.redirect 302 (getByShort st rest).1.1
          else Response.error 404 "URL not found", st) ∧
    (specFirstSegment ("/" ++ rest) = rest ↔ '/' ∉ rest.data) := by
  refine ⟨sliceFrom1_slash rest, resolveURLHandler_rest st m rest d, ?_⟩
  have hdata : ("/" ++ rest).data.drop 1 = rest.data := by
    rw [String.data_append]; rfl
  unfold specFirstSegment
  rw [hdata]
  constructor
  · intro h hmem
    have hd : List.takeWhile (fun c => decide (c ≠ '/')) rest.data = rest.data :=
      congrArg String.data h
    have := List.takeWhile_eq_self_iff.mp hd '/' hmem
    simp at this
  · intro h
    apply String.ext
    show List.takeWhile (fun c => decide (c ≠ '/')) rest.data = rest.data
    rw [List.takeWhile_eq_self_iff]
    intro c hc
    have : c ≠ '/' := fun e => h (e ▸ hc)
    simpa using this

/-- C15, as stated, fails: on the registry where `AbC123` resolves to
`https://example.com/é` (its `é` the two bytes `c3 a9`), the request for
`/AbC123` is a hit and the handler hands that URL to `http.Redirect`, but the
`Location` header of the answer is `https://example.com/%c3%a9` when the library
leaves the URL to the escaping alone, and is not the stored URL whatever its
rewriting step does. -/
theorem resolve_target_fails :
    (getByShort (save newURLStore "AbC123" "https://example.com/\xc3\xa9") "AbC123").1
      = ("https://example.com/\xc3\xa9", true) ∧
    resolveURLHandler (save newURLStore "AbC123" "https://example.com/\xc3\xa9")
        ⟨"GET", "/AbC123", none⟩
      = some (Response.redirect 302 "https://example.com/\xc3\xa9",
          save newURLStore "AbC123" "https://example.com/\xc3\xa9") ∧
    resolveLocation (fun _ url => url)
        (save newURLStore "AbC123" "https://example.com/\xc3\xa9")
        ⟨"GET", "/AbC123", none⟩
      = some "https://example.com/%c3%a9" ∧
    ¬ ∃ rewrite : String → String → String,
      resolveLocation rewrite (save newURLStore "AbC123" "https://example.com/\xc3\xa9")
          ⟨"GET", "/AbC123", none⟩
        = some "https://example.com/\xc3\xa9" := by
  have hcall : resolveURLHandler (save newURLStore "AbC123" "https://example.com/\xc3\xa9")
      ⟨"GET", "/AbC123", none⟩
      = some (Response.redirect 302 "https://example.com/\xc3\xa9",
          save newURLStore "AbC123" "https://example.com/\xc3\xa9") := by
    decide
  refine ⟨by decide, hcall, by decide, ?_⟩
  rintro ⟨rewrite, h⟩
  exact (resolveLocation_of_redirect rewrite _ _ _ _ hcall).2.2
    ⟨'\xc3', by decide, by decide⟩ h

/-- C15, amended: on any registry and for any path beginning with `/`, the resolve
handler looks up the path after its first byte.  On a hit it answers through
`http.Redirect` with status 302 and the stored long URL as target; the
`Location` header is that URL as the library rewrites and escapes it, the
stored URL itself where the rewriting leaves it as it is and it is all ASCII,
and never the stored URL when it holds a non-ASCII byte.  On a miss it answers
404, with no `Location` header.  The registry is unchanged in both cases. -/
theorem resolve_outcome (st : URLStore) (r : Request)
    (hpath : r.path.data.head? = some '/') :
    ∃ shortID, sliceFrom1 r.path = some shortID ∧
      ((getByShort st shortID).1.2 = true →
        resolveURLHandler st r
          = some (Response.redirect 302 (getByShort st shortID).1.1, st) ∧
        ∀ rewrite : String → String → String,
          resolveLocation rewrite st r
            = some (hexEscapeNonASCII (rewrite r.path (getByShort st shortID).1.1)) ∧
          ((rewrite r.path (getByShort st shortID).1.1 = (getByShort st shortID).1.1 ∧
              ∀ c ∈ (getByShort st shortID).1.1.data, c.toNat < 128) →
            resolveLocation rewrite st r = some (getByShort st shortID).1.1) ∧
          ((∃ c ∈ (getByShort st shortID).1.1.data, 128 ≤ c.toNat) →
            resolveLocation rewrite st r ≠ some (getByShort st shortID).1.1)) ∧
      ((getByShort st shortID).1.2 = false →
        resolveURLHandler st r = some (Response.error 404 "URL not found", st) ∧
        ∀ rewrite : String → String → String, resolveLocation rewrite st r = none) := by
  obtain ⟨m, path, d⟩ := r
  obtain ⟨rest, hp⟩ : ∃ rest, path = "/" ++ rest := ⟨_, path_of_leading_slash path hpath⟩
  refine ⟨rest, ?_, ?_, ?_⟩
  · show sliceFrom1 path = _
    rw [hp]; exact sliceFrom1_slash _
  · intro hhit
    have hcall : resolveURLHandler st ⟨m, path, d⟩
        = some (Response.redirect 302 (getByShort st rest).1.1, st) := by
      rw [hp, resolveURLHandler_rest, if_pos hhit]
    exact ⟨hcall, fun rewrite => resolveLocation_of_redirect rewrite st st _ _ hcall⟩
  · intro hmiss
    have hcall : resolveURLHandler st ⟨m, path, d⟩
        = some (Response.error 404 "URL not found", st) := by
      rw [hp, resolveURLHandler_rest, if_neg (by rw [hmiss]; exact Bool.false_ne_true)]
    refine ⟨hcall, fun rewrite => ?_⟩
    simp only [resolveLocation, hcall, Option.some_bind, locationHeader]

/-- Witness of C15 amended: on the registry holding `AbC123 -> https://example.com`,
the path `/AbC123` is answered through `http.Redirect` with status 302 and
target `https://example.com`, which is also the `Location` header when the
library leaves that URL as it is. -/
theorem resolve_outcome_witness :
    resolveURLHandler (save newURLStore "AbC123" "https://example.com")
        ⟨"GET", "/AbC123", none⟩
      = some (Response.redirect 302 "https://example.com",
          save newURLStore "AbC123" "https://example.com") ∧
    resolveLocation (fun _ url => url) (save newURLStore "AbC123" "https://example.com")
        ⟨"GET", "/AbC123", none⟩
      = some "https://example.com" :=
  have hthm := resolve_outcome (save newURLStore "AbC123" "https://example.com")
    ⟨"GET", "/AbC123", none⟩ (by decide)
  Exists.elim hthm (fun shortID h =>
    have hid : shortID = "AbC123" :=
      (Option.some.inj ((show sliceFrom1 "/AbC123" = some "AbC123" from by decide).symm.trans
        h.1)).symm
    have hhit := h.2.1 (by rw [hid]; decide)
    have hurl : (getByShort (save newURLStore "AbC123" "https://example.com") shortID).1.1
        = "https://example.com" := by rw [hid]; decide
    ⟨by rw [hhit.1, hurl],
      ((hhit.2 (fun _ url => url)).2.1 ⟨rfl, by rw [hurl]; decide⟩).trans
        (congrArg some hurl)⟩)

/-- C17: on a registry whose two tables are mutual inverses, an accepted Shorten
request for `u` whose generated identifier `g` is not a key of `shortToLong`
leaves a registry whose tables are again mutual inverses: a hit changes
nothing, a miss adds the pair `g <-> u` and touches no other key. -/
theorem checked_flow_keeps_inverse (st : URLStore) (p url gen : String)
    (hshort : ShortMirrored st) (hlong : LongMirrored st) (hurl : url ≠ "")
    (hfresh : (getByShort st gen).1.2 = false) :
    ShortMirrored (shortenURLHandler st ⟨"POST", p, some url⟩ gen).2 ∧
    LongMirrored (shortenURLHandler st ⟨"POST", p, some url⟩ gen).2 ∧
    ((getByLong st url).1.2 = true →
      (shortenURLHandler st ⟨"POST", p, some url⟩ gen).2 = st) ∧
    ((getByLong st url).1.2 = false →
      (getByShort (shortenURLHandler st ⟨"POST", p, some url⟩ gen).2 gen).1 = (url, true) ∧
      (getByLong (shortenURLHandler st ⟨"POST", p, some url⟩ gen).2 url).1 = (gen, true) ∧
      (∀ k, k ≠ gen →
        (getByShort (shortenURLHandler st ⟨"POST", p, some url⟩ gen).2 k).1
          = (getByShort st k).1) ∧
      (∀ k, k ≠ url →
        (getByLong (shortenURLHandler st ⟨"POST", p, some url⟩ gen).2 k).1
          = (getByLong st k).1)) := by
  rcases hget : (getByLong st url).1 with ⟨found, ok⟩
  cases ok with
  | true =>
    rw [shorten_hit st p url gen found hurl hget]
    exact ⟨hshort, hlong, fun _ => rfl, fun h => Bool.noConfusion h⟩
  | false =>
    have hmiss : (getByLong st url).1.2 = false := by rw [hget]
    rw [shorten_miss st p url gen hurl hmiss]
    refine ⟨?_, ?_, fun h => Bool.noConfusion h, fun _ => ⟨?_, ?_, ?_, ?_⟩⟩
    · refine shortMirrored_save st gen url hshort ?_
      intro other _ hother
      have := hshort other url hother
      rw [this] at hmiss
      exact Bool.noConfusion hmiss
    · refine longMirrored_save st gen url hlong ?_
      intro other _ hother
      have := hlong other gen hother
      rw [this] at hfresh
      exact Bool.noConfusion hfresh
    · exact getByShort_save_same st gen url
    · exact getByLong_save_same st gen url
    · exact fun k hk => getByShort_save_ne st gen url k hk
    · exact fun k hk => getByLong_save_ne st gen url k hk

/-- Witness of C17: on the registry holding `zzzzzz <-> https://example.org`, the
request for `https://example.com` with generated identifier `AbC123`. -/
theorem checked_flow_keeps_inverse_witness :
    ShortMirrored (save newURLStore "zzzzzz" "https://example.org") ∧
    LongMirrored (save newURLStore "zzzzzz" "https://example.org") ∧
    (shortenURLHandler (save newURLStore "zzzzzz" "https://example.org")
        ⟨"POST", "/shorten", some "https://example.com"⟩ "AbC123").2
      = save (save newURLStore "zzzzzz" "https://example.org") "AbC123"
          "https://example.com" ∧
    ShortMirrored (shortenURLHandler (save newURLStore "zzzzzz" "https://example.org")
      ⟨"POST", "/shorten", some "https://example.com"⟩ "AbC123").2 ∧
    LongMirrored (shortenURLHandler (save newURLStore "zzzzzz" "https://example.org")
      ⟨"POST", "/shorten", some "https://example.com"⟩ "AbC123").2 :=
  have hs : ShortMirrored (save newURLStore "zzzzzz" "https://example.org") :=
    shortMirrored_save newURLStore _ _ shortMirrored_new
      (fun other _ => by simp [getByShort, newURLStore, GoMap.empty, GoMap.get])
  have hl : LongMirrored (save newURLStore "zzzzzz" "https://example.org") :=
    longMirrored_save newURLStore _ _ longMirrored_new
      (fun other _ => by simp [getByLong, newURLStore, GoMap.empty, GoMap.get])
  have h := checked_flow_keeps_inverse (save newURLStore "zzzzzz" "https://example.org")
    "/shorten" "https://example.com" "AbC123" hs hl (by decide) (by decide)
  ⟨hs, hl, by decide, h.1, h.2.1⟩

/-- C18: with an accepted Shorten request run as two atomic steps (the `getByLong`
check, then generate-and-save), the interleaving check A, check B, save A,
save B of two requests for the same URL on the empty registry, with distinct
generated identifiers, ends with both identifiers resolving to that URL and
with two different `short_url` answers. -/
theorem check_then_act_race (url gen1 gen2 p1 p2 : String) (hurl : url ≠ "")
    (hne : gen1 ≠ gen2) :
    shortenCheck newURLStore ⟨"POST", p1, some url⟩ = (Sum.inr url, newURLStore) ∧
    shortenCheck newURLStore ⟨"POST", p2, some url⟩ = (Sum.inr url, newURLStore) ∧
    (shortenCommit newURLStore url gen1).1
      = Response.json 200 ("http://localhost:8080/" ++ gen1) ∧
    (shortenCommit (shortenCommit newURLStore url gen1).2 url gen2).1
      = Response.json 200 ("http://localhost:8080/" ++ gen2) ∧
    (shortenCommit newURLStore url gen1).1
      ≠ (shortenCommit (shortenCommit newURLStore url gen1).2 url gen2).1 ∧
    (getByShort (shortenCommit (shortenCommit newURLStore url gen1).2 url gen2).2 gen1).1
      = (url, true) ∧
    (getByShort (shortenCommit (shortenCommit newURLStore url gen1).2 url gen2).2 gen2).1
      = (url, true) := by
  have hmiss : (getByLong newURLStore url).1.2 = false := rfl
  refine ⟨shortenCheck_miss newURLStore p1 url hurl hmiss,
    shortenCheck_miss newURLStore p2 url hurl hmiss, rfl, rfl, ?_, ?_, ?_⟩
  · intro h
    exact hne (append_left_cancel _ _ _ (Response.json.inj h).2)
  · show (getByShort (save (save newURLStore gen1 url) gen2 url) gen1).1 = (url, true)
    rw [getByShort_save_ne _ gen2 url gen1 hne]
    exact getByShort_save_same newURLStore gen1 url
  · exact getByShort_save_same (save newURLStore gen1 url) gen2 url

/-- Witness of C18: two requests for `https://example.com`, drawing `AbC123` and
`zzzzzz`. -/
theorem check_then_act_race_witness :
    "https://example.com" ≠ "" ∧ "AbC123" ≠ "zzzzzz" ∧
    (shortenCommit newURLStore "https://example.com" "AbC123").1
      ≠ (shortenCommit (shortenCommit newURLStore "https://example.com" "AbC123").2
          "https://example.com" "zzzzzz").1 ∧
    (getByShort (shortenCommit (shortenCommit newURLStore "https://example.com" "AbC123").2
        "https://example.com" "zzzzzz").2 "AbC123").1 = ("https://example.com", true) ∧
    (getByShort (shortenCommit (shortenCommit newURLStore "https://example.com" "AbC123").2
        "https://example.com" "zzzzzz").2 "zzzzzz").1 = ("https://example.com", true) :=
  have h := check_then_act_race "https://example.com" "AbC123" "zzzzzz" "/shorten"
    "/shorten" (by decide) (by decide)
  ⟨by decide, by decide, h.2.2.2.2.1, h.2.2.2.2.2.1, h.2.2.2.2.2.2⟩

/-- C19: `save(s, u)` leaves `getByShort` unchanged at every identifier other than
`s` and `getByLong` unchanged at every URL other than `u`, and every key found
before the call is still found after it. -/
theorem save_frame (st : URLStore) (shortID url : String) :
    (∀ k, k ≠ shortID →
      (getByShort (save st shortID url) k).1 = (getByShort st k).1) ∧
    (∀ k, k ≠ url → (getByLong (save st shortID url) k).1 = (getByLong st k).1) ∧
    (∀ k, (getByShort st k).1.2 = true →
      (getByShort (save st shortID url) k).1.2 = true) ∧
    (∀ k, (getByLong st k).1.2 = true →
      (getByLong (save st shortID url) k).1.2 = true) :=
  ⟨fun k hk => getByShort_save_ne st shortID url k hk,
    fun k hk => getByLong_save_ne st shortID url k hk,
    fun k hk => getByShort_save_found st shortID url k hk,
    fun k hk => getByLong_save_found st shortID url k hk⟩

/-- Witness of C19: on the registry holding `a <-> x`, the call `save("b", "y")`
leaves the lookups of `a` and of `x` as they were. -/
theorem save_frame_witness :
    (getByShort (save (save newURLStore "a" "x") "b" "y") "a").1 = ("x", true) ∧
    (getByLong (save (save newURLStore "a" "x") "b" "y") "x").1 = ("a", true) ∧
    (getByShort (save (save newURLStore "a" "x") "b" "y") "a").1.2 = true ∧
    (getByLong (save (save newURLStore "a" "x") "b" "y") "x").1.2 = true :=
  have h := save_frame (save newURLStore "a" "x") "b" "y"
  ⟨h.1 "a" (by decide), h.2.1 "x" (by decide), h.2.2.1 "a" (by decide),
    h.2.2.2 "x" (by decide)⟩

/-- C20: for `u1` different from `u2`, after `save(s, u1)` then `save(s, u2)` on any
registry, `getByLong(u1)` still returns `(s, true)` while `getByShort(s)` returns
`(u2, true)`: the reverse entry of the overwritten URL stays. -/
theorem stale_reverse_entry (st : URLStore) (shortID url1 url2 : String)
    (hne : url1 ≠ url2) :
    (getByLong (save (save st shortID url1) shortID url2) url1).1 = (shortID, true) ∧
    (getByShort (save (save st shortID url1) shortID url2) shortID).1 = (url2, true) := by
  refine ⟨?_, getByShort_save_same _ shortID url2⟩
  rw [getByLong_save_ne _ shortID url2 url1 hne]
  exact getByLong_save_same st shortID url1

/-- Witness of C20: on the empty registry, `save("a", "x")` then `save("a", "y")`. -/
theorem stale_reverse_entry_witness :
    "x" ≠ "y" ∧
    (getByLong (save (save newURLStore "a" "x") "a" "y") "x").1 = ("a", true) ∧
    (getByShort (save (save newURLStore "a" "x") "a" "y") "a").1 = ("y", true) :=
  ⟨by decide, stale_reverse_entry newURLStore "a" "x" "y" (by decide)⟩

end TinyUrl
